import Mathlib

/-!
# SimpleLang lexer: token model and scanner, verified

Shallow embedding of the SimpleLang tokenizer fragment:
`crates/chat-cli/src/cli/chat/tools/compiler/token.h` supplies the token
model (the `TokenType` enumeration, the `Token` struct, and the declarations
of `create_token` and `token_type_to_string`).  The scanner itself
(`next_token` and friends) is not part of the given sources; it is modelled
from the specification's scanning algorithm, as marked on each definition.
-/

set_option maxHeartbeats 1000000

/-- Token types for SimpleLang, from the `TokenType` enum in `token.h`
(30 variants, in source order). -/
inductive TokenType : Type
  -- Literals
  | TOKEN_NUMBER
  | TOKEN_IDENTIFIER
  | TOKEN_STRING
  -- Keywords
  | TOKEN_IF
  | TOKEN_ELSE
  | TOKEN_WHILE
  | TOKEN_PRINT
  | TOKEN_READ
  | TOKEN_INT
  | TOKEN_STRING_TYPE
  -- Operators
  | TOKEN_PLUS
  | TOKEN_MINUS
  | TOKEN_MULTIPLY
  | TOKEN_DIVIDE
  | TOKEN_ASSIGN
  | TOKEN_EQUAL
  | TOKEN_NOT_EQUAL
  | TOKEN_LESS
  | TOKEN_GREATER
  | TOKEN_LESS_EQUAL
  | TOKEN_GREATER_EQUAL
  -- Delimiters
  | TOKEN_SEMICOLON
  | TOKEN_COMMA
  | TOKEN_LEFT_PAREN
  | TOKEN_RIGHT_PAREN
  | TOKEN_LEFT_BRACE
  | TOKEN_RIGHT_BRACE
  -- Special
  | TOKEN_NEWLINE
  | TOKEN_EOF
  | TOKEN_ERROR
  deriving DecidableEq, Repr

open TokenType

/-- The `value` union of the `Token` struct in `token.h`:
`union { int int_value; char* string_value; }`.  A union member is
meaningful only after it has been written; a shallow embedding therefore
records which member (if any) holds a written value. -/
inductive TokenValue : Type
  | int_value (n : Int)
  | string_value (s : String)
  deriving DecidableEq, Repr

/-- The `Token` struct from `token.h`: kind, lexeme, 1-based position, and
the literal union.  `value = none` models a token whose union member was
never written (e.g. fresh from `create_token`, whose declaration takes no
literal argument); the C type system places no constraint tying the union
to `type`. -/
structure Token : Type where
  type : TokenType
  lexeme : String
  line : Int
  column : Int
  value : Option TokenValue
  deriving DecidableEq, Repr

/-- Modelled from the spec: `create_token` is declared in `token.h` as
`Token* create_token(TokenType type, char* lexeme, int line, int column);`
— note there is no literal parameter.  Per the spec's construction
contract it stores the supplied arguments with no further validation; the
union member, which no argument can supply, is left unwritten. -/
def create_token (type : TokenType) (lexeme : String) (line column : Int) :
    Token :=
  { type := type, lexeme := lexeme, line := line, column := column,
    value := none }

/-- Modelled from the spec: `token_type_to_string` is declared in `token.h`
but its body is not in the given sources; per the spec it returns a
human-readable name for each `TokenType`, usable in diagnostics. -/
def token_type_to_string (type : TokenType) : String :=
  match type with
  | TOKEN_NUMBER => "NUMBER"
  | TOKEN_IDENTIFIER => "IDENTIFIER"
  | TOKEN_STRING => "STRING"
  | TOKEN_IF => "IF"
  | TOKEN_ELSE => "ELSE"
  | TOKEN_WHILE => "WHILE"
  | TOKEN_PRINT => "PRINT"
  | TOKEN_READ => "READ"
  | TOKEN_INT => "INT"
  | TOKEN_STRING_TYPE => "STRING_TYPE"
  | TOKEN_PLUS => "PLUS"
  | TOKEN_MINUS => "MINUS"
  | TOKEN_MULTIPLY => "MULTIPLY"
  | TOKEN_DIVIDE => "DIVIDE"
  | TOKEN_ASSIGN => "ASSIGN"
  | TOKEN_EQUAL => "EQUAL"
  | TOKEN_NOT_EQUAL => "NOT_EQUAL"
  | TOKEN_LESS => "LESS"
  | TOKEN_GREATER => "GREATER"
  | TOKEN_LESS_EQUAL => "LESS_EQUAL"
  | TOKEN_GREATER_EQUAL => "GREATER_EQUAL"
  | TOKEN_SEMICOLON => "SEMICOLON"
  | TOKEN_COMMA => "COMMA"
  | TOKEN_LEFT_PAREN => "LEFT_PAREN"
  | TOKEN_RIGHT_PAREN => "RIGHT_PAREN"
  | TOKEN_LEFT_BRACE => "LEFT_BRACE"
  | TOKEN_RIGHT_BRACE => "RIGHT_BRACE"
  | TOKEN_NEWLINE => "NEWLINE"
  | TOKEN_EOF => "EOF"
  | TOKEN_ERROR => "ERROR"

/-- The 30 variants of `TokenType`, in the order `token.h` declares them. -/
def allTokenTypes : List TokenType :=
  [TOKEN_NUMBER, TOKEN_IDENTIFIER, TOKEN_STRING,
   TOKEN_IF, TOKEN_ELSE, TOKEN_WHILE, TOKEN_PRINT, TOKEN_READ,
   TOKEN_INT, TOKEN_STRING_TYPE,
   TOKEN_PLUS, TOKEN_MINUS, TOKEN_MULTIPLY, TOKEN_DIVIDE, TOKEN_ASSIGN,
   TOKEN_EQUAL, TOKEN_NOT_EQUAL, TOKEN_LESS, TOKEN_GREATER,
   TOKEN_LESS_EQUAL, TOKEN_GREATER_EQUAL,
   TOKEN_SEMICOLON, TOKEN_COMMA, TOKEN_LEFT_PAREN, TOKEN_RIGHT_PAREN,
   TOKEN_LEFT_BRACE, TOKEN_RIGHT_BRACE,
   TOKEN_NEWLINE, TOKEN_EOF, TOKEN_ERROR]

/-- The data-model invariant claimed of tokens: the literal union holds a
written value exactly when the kind is Number or String, and the member
written agrees with the kind (int for Number, text for String). -/
def literalAgrees (t : Token) : Bool :=
  match t.type, t.value with
  | TOKEN_NUMBER, some (TokenValue.int_value _) => true
  | TOKEN_NUMBER, _ => false
  | TOKEN_STRING, some (TokenValue.string_value _) => true
  | TOKEN_STRING, _ => false
  | _, none => true
  | _, some _ => false

/-- Modelled from the spec: horizontal whitespace skipped without emitting
tokens (spaces and tabs). -/
def isHorizWs (c : Char) : Bool :=
  c = ' ' || c = '\t'

/-- Modelled from the spec: an identifier starts with a letter or an
underscore. -/
def isIdentStart (c : Char) : Bool :=
  c.isAlpha || c = '_'

/-- Modelled from the spec: identifier continuation characters are letters,
digits and underscores. -/
def isIdentChar (c : Char) : Bool :=
  c.isAlpha || c.isDigit || c = '_'

/-- Modelled from the spec: post-hoc case-sensitive comparison of a full
identifier lexeme against the fixed keyword set
if, else, while, print, read, int, string. -/
def keywordKind (s : String) : TokenType :=
  if s = "if" then TOKEN_IF
  else if s = "else" then TOKEN_ELSE
  else if s = "while" then TOKEN_WHILE
  else if s = "print" then TOKEN_PRINT
  else if s = "read" then TOKEN_READ
  else if s = "int" then TOKEN_INT
  else if s = "string" then TOKEN_STRING_TYPE
  else TOKEN_IDENTIFIER

/-- Modelled from the spec: a maximal run of ASCII digits parsed as an
integer literal. -/
def digitsToInt (ds : List Char) : Int :=
  Int.ofNat (ds.foldl (fun a c => a * 10 + (c.toNat - '0'.toNat)) 0)

/-- Modelled from the spec: expansion of the recognized escape sequences
inside string literals (backslash-n, backslash-t, backslash-backslash,
backslash-quote); any other escaped character stands for itself. -/
def unescape (c : Char) : Char :=
  if c = 'n' then '\n'
  else if c = 't' then '\t'
  else c

/-- Modelled from the spec: scan the body of a string literal (the part
after the opening quote).  On success returns the raw body characters (the
source text between the quotes) and the unescaped literal text; returns
`none` when a newline or the end of the buffer is reached before the
closing quote (unterminated string). -/
def scanStringBody : List Char → Option (List Char × List Char)
  | [] => none
  | c :: cs =>
    if c = '\"' then some ([], [])
    else if c = '\n' then none
    else if c = '\\' then
      match cs with
      | [] => none
      | e :: cs2 =>
        if e = '\n' then none
        else
          match scanStringBody cs2 with
          | none => none
          | some (body, lit) => some (c :: e :: body, unescape e :: lit)
    else
      match scanStringBody cs with
      | none => none
      | some (body, lit) => some (c :: body, c :: lit)

/-- Modelled from the spec: operator, delimiter and unknown-character
recognition (the last two steps of the scanning algorithm).  Multi-character
operators are matched greedily before their single-character prefixes; a
lone exclamation mark is an error; any character matching no rule yields an
Error token of that one character.  Returns the kind, the lexeme and the
number of characters consumed. -/
def scanOp (c : Char) (cs : List Char) : TokenType × String × Nat :=
  if c = '=' then
    if cs.head? = some '=' then (TOKEN_EQUAL, "==", 2) else (TOKEN_ASSIGN, "=", 1)
  else if c = '!' then
    if cs.head? = some '=' then (TOKEN_NOT_EQUAL, "!=", 2)
    else (TOKEN_ERROR, "!", 1)
  else if c = '<' then
    if cs.head? = some '=' then (TOKEN_LESS_EQUAL, "<=", 2)
    else (TOKEN_LESS, "<", 1)
  else if c = '>' then
    if cs.head? = some '=' then (TOKEN_GREATER_EQUAL, ">=", 2)
    else (TOKEN_GREATER, ">", 1)
  else if c = '+' then (TOKEN_PLUS, "+", 1)
  else if c = '-' then (TOKEN_MINUS, "-", 1)
  else if c = '*' then (TOKEN_MULTIPLY, "*", 1)
  else if c = '/' then (TOKEN_DIVIDE, "/", 1)
  else if c = ';' then (TOKEN_SEMICOLON, ";", 1)
  else if c = ',' then (TOKEN_COMMA, ",", 1)
  else if c = '(' then (TOKEN_LEFT_PAREN, "(", 1)
  else if c = ')' then (TOKEN_RIGHT_PAREN, ")", 1)
  else if c = '\x7b' then (TOKEN_LEFT_BRACE, "\x7b", 1)
  else if c = '\x7d' then (TOKEN_RIGHT_BRACE, "\x7d", 1)
  else (TOKEN_ERROR, String.mk [c], 1)

/-- Modelled from the spec: recognize exactly one lexical unit at the head
of the remaining input (whitespace already skipped), given the current line
and the column of the first character.  Returns the token, the number of
characters consumed, and the updated line and column. -/
def scan1 (rest : List Char) (line col : Int) : Token × Nat × Int × Int :=
  match rest with
  | [] =>
    ({ type := TOKEN_EOF, lexeme := "", line := line, column := col,
       value := none }, 0, line, col)
  | c :: cs =>
    if c = '\n' then
      ({ type := TOKEN_NEWLINE, lexeme := "\n", line := line, column := col,
         value := none }, 1, line + 1, 1)
    else if c.isDigit then
      let ds := List.takeWhile Char.isDigit (c :: cs)
      ({ type := TOKEN_NUMBER, lexeme := String.mk ds, line := line,
         column := col, value := some (TokenValue.int_value (digitsToInt ds)) },
       ds.length, line, col + ds.length)
    else if isIdentStart c then
      let w := List.takeWhile isIdentChar (c :: cs)
      ({ type := keywordKind (String.mk w), lexeme := String.mk w,
         line := line, column := col, value := none },
       w.length, line, col + w.length)
    else if c = '\"' then
      match scanStringBody cs with
      | some (body, lit) =>
        ({ type := TOKEN_STRING,
           lexeme := String.mk ('\"' :: (body ++ ['\"'])), line := line,
           column := col, value := some (TokenValue.string_value (String.mk lit)) },
         body.length + 2, line, col + (body.length + 2))
      | none =>
        let bad := List.takeWhile (fun d => d ≠ '\n') cs
        ({ type := TOKEN_ERROR, lexeme := "Unterminated string",
           line := line, column := col, value := none },
         bad.length + 1, line, col + (bad.length + 1))
    else
      let r := scanOp c cs
      ({ type := r.1, lexeme := r.2.1, line := line, column := col,
         value := none }, r.2.2, line, col + r.2.2)

/-- Modelled from the spec: the Lexer state — read-only source buffer,
cursor offset, current line and column. -/
structure Lexer : Type where
  source : List Char
  pos : Nat
  line : Int
  column : Int
  deriving DecidableEq, Repr

/-- Cursor remainder: the part of the source buffer at and after the
cursor. -/
def lexRest (st : Lexer) : List Char :=
  st.source.drop st.pos

/-- Number of horizontal-whitespace characters skipped at the cursor
(spec step 1). -/
def wsLen (st : Lexer) : Nat :=
  ((lexRest st).takeWhile isHorizWs).length

/-- Remainder after skipping horizontal whitespace. -/
def lexRest2 (st : Lexer) : List Char :=
  (lexRest st).drop (wsLen st)

/-- Column of the first character after skipping horizontal whitespace. -/
def lexCol2 (st : Lexer) : Int :=
  st.column + wsLen st

/-- Modelled from the spec: `next_token` — skip horizontal whitespace
(updating the column), then recognize one lexical unit at the cursor and
advance past it; at the end of the buffer emit EndOfFile at the current
position. -/
def next_token (st : Lexer) : Token × Lexer :=
  ((scan1 (lexRest2 st) st.line (lexCol2 st)).1,
   { source := st.source,
     pos := st.pos + wsLen st + (scan1 (lexRest2 st) st.line (lexCol2 st)).2.1,
     line := (scan1 (lexRest2 st) st.line (lexCol2 st)).2.2.1,
     column := (scan1 (lexRest2 st) st.line (lexCol2 st)).2.2.2 })

/-- Modelled from the spec: the initial Lexer state over a source buffer,
cursor at offset 0, line 1, column 1. -/
def initLexer (s : String) : Lexer :=
  { source := s.toList, pos := 0, line := 1, column := 1 }

/-- Modelled from the spec: the one-shot "tokenize all" operation, by
repeated `next_token` calls, with explicit fuel; the returned sequence ends
with the first EndOfFile token produced. -/
def tokenizeFuel : Nat → Lexer → List Token
  | 0, _ => []
  | fuel + 1, st =>
    let r := next_token st
    if r.1.type = TOKEN_EOF then [r.1]
    else r.1 :: tokenizeFuel fuel r.2

/-- Modelled from the spec: tokenize a whole source buffer.  One unit of
fuel per source character plus one for the final EndOfFile is always
sufficient, since every non-EndOfFile call consumes at least one
character. -/
def tokenize (s : String) : List Token :=
  tokenizeFuel (s.toList.length + 1) (initLexer s)

/-- A token sequence ends with an EndOfFile token. -/
def endsEOF (l : List Token) : Bool :=
  match l.getLast? with
  | some t => t.type == TOKEN_EOF
  | none => false

theorem uint32_le_iff (a b : UInt32) : a ≤ b ↔ a.toNat ≤ b.toNat := Iff.rfl

theorem uint32_lt_iff (a b : UInt32) : a < b ↔ a.toNat < b.toNat := Iff.rfl

theorem alpha_not_digit (c : Char) (h : c.isAlpha = true) : c.isDigit = false := by
  simp [Char.isAlpha, Char.isUpper, Char.isLower, Char.isDigit,
        uint32_le_iff, uint32_lt_iff, UInt32.size] at *
  omega

theorem identStart_not_digit (c : Char) (h : isIdentStart c = true) :
    ¬ c.isDigit = true := by
  simp only [isIdentStart, Bool.or_eq_true] at h
  rcases h with h | h
  · simp [alpha_not_digit c h]
  · simp only [decide_eq_true_eq] at h
    subst h
    decide

theorem identStart_ne_newline (c : Char) (h : isIdentStart c = true) :
    c ≠ '\n' := by
  intro e
  subst e
  simp [isIdentStart] at h

theorem identStart_isIdentChar (c : Char) (h : isIdentStart c = true) :
    isIdentChar c = true := by
  simp only [isIdentStart, Bool.or_eq_true] at h
  simp only [isIdentChar, Bool.or_eq_true]
  tauto

theorem digit_ne_newline (c : Char) (h : c.isDigit = true) : c ≠ '\n' := by
  intro e
  subst e
  simp at h

theorem keywordKind_facts (s : String) :
    keywordKind s ≠ TOKEN_EOF ∧ keywordKind s ≠ TOKEN_NUMBER ∧
    keywordKind s ≠ TOKEN_STRING := by
  unfold keywordKind
  split_ifs <;> exact ⟨by decide, by decide, by decide⟩

theorem scanOp_facts (c : Char) (cs : List Char) :
    (scanOp c cs).1 ≠ TOKEN_EOF ∧ (scanOp c cs).1 ≠ TOKEN_NUMBER ∧
    (scanOp c cs).1 ≠ TOKEN_STRING ∧ 1 ≤ (scanOp c cs).2.2 := by
  delta scanOp
  by_cases h1 : c = '='
  · rw [if_pos h1]
    by_cases g : cs.head? = some '='
    · rw [if_pos g]; exact ⟨by decide, by decide, by decide, by decide⟩
    · rw [if_neg g]; exact ⟨by decide, by decide, by decide, by decide⟩
  rw [if_neg h1]
  by_cases h2 : c = '!'
  · rw [if_pos h2]
    by_cases g : cs.head? = some '='
    · rw [if_pos g]; exact ⟨by decide, by decide, by decide, by decide⟩
    · rw [if_neg g]; exact ⟨by decide, by decide, by decide, by decide⟩
  rw [if_neg h2]
  by_cases h3 : c = '<'
  · rw [if_pos h3]
    by_cases g : cs.head? = some '='
    · rw [if_pos g]; exact ⟨by decide, by decide, by decide, by decide⟩
    · rw [if_neg g]; exact ⟨by decide, by decide, by decide, by decide⟩
  rw [if_neg h3]
  by_cases h4 : c = '>'
  · rw [if_pos h4]
    by_cases g : cs.head? = some '='
    · rw [if_pos g]; exact ⟨by decide, by decide, by decide, by decide⟩
    · rw [if_neg g]; exact ⟨by decide, by decide, by decide, by decide⟩
  rw [if_neg h4]
  by_cases h5 : c = '+'
  · rw [if_pos h5]; exact ⟨by decide, by decide, by decide, by decide⟩
  rw [if_neg h5]
  by_cases h6 : c = '-'
  · rw [if_pos h6]; exact ⟨by decide, by decide, by decide, by decide⟩
  rw [if_neg h6]
  by_cases h7 : c = '*'
  · rw [if_pos h7]; exact ⟨by decide, by decide, by decide, by decide⟩
  rw [if_neg h7]
  by_cases h8 : c = '/'
  · rw [if_pos h8]; exact ⟨by decide, by decide, by decide, by decide⟩
  rw [if_neg h8]
  by_cases h9 : c = ';'
  · rw [if_pos h9]; exact ⟨by decide, by decide, by decide, by decide⟩
  rw [if_neg h9]
  by_cases h10 : c = ','
  · rw [if_pos h10]; exact ⟨by decide, by decide, by decide, by decide⟩
  rw [if_neg h10]
  by_cases h11 : c = '('
  · rw [if_pos h11]; exact ⟨by decide, by decide, by decide, by decide⟩
  rw [if_neg h11]
  by_cases h12 : c = ')'
  · rw [if_pos h12]; exact ⟨by decide, by decide, by decide, by decide⟩
  rw [if_neg h12]
  by_cases h13 : c = '\x7b'
  · rw [if_pos h13]; exact ⟨by decide, by decide, by decide, by decide⟩
  rw [if_neg h13]
  by_cases h14 : c = '\x7d'
  · rw [if_pos h14]; exact ⟨by decide, by decide, by decide, by decide⟩
  rw [if_neg h14]
  exact ⟨(by decide : TOKEN_ERROR ≠ TOKEN_EOF),
         (by decide : TOKEN_ERROR ≠ TOKEN_NUMBER),
         (by decide : TOKEN_ERROR ≠ TOKEN_STRING), le_refl 1⟩

theorem scan1_nil (l k : Int) :
    scan1 [] l k =
      ({ type := TOKEN_EOF, lexeme := "", line := l, column := k,
         value := none }, 0, l, k) := rfl

theorem scan1_eq_newline (cs : List Char) (l k : Int) :
    scan1 ('\n' :: cs) l k =
      ({ type := TOKEN_NEWLINE, lexeme := "\n", line := l, column := k,
         value := none }, 1, l + 1, 1) := by
  simp [scan1]

theorem scan1_eq_digit (c : Char) (cs : List Char) (l k : Int)
    (h1 : c ≠ '\n') (h2 : c.isDigit = true) :
    scan1 (c :: cs) l k =
      ({ type := TOKEN_NUMBER,
         lexeme := String.mk (List.takeWhile Char.isDigit (c :: cs)),
         line := l, column := k,
         value := some (TokenValue.int_value
           (digitsToInt (List.takeWhile Char.isDigit (c :: cs)))) },
       (List.takeWhile Char.isDigit (c :: cs)).length, l,
       k + (List.takeWhile Char.isDigit (c :: cs)).length) := by
  simp only [scan1]
  rw [if_neg h1, if_pos h2]

theorem scan1_eq_ident (c : Char) (cs : List Char) (l k : Int)
    (h1 : c ≠ '\n') (h2 : ¬ c.isDigit = true) (h3 : isIdentStart c = true) :
    scan1 (c :: cs) l k =
      ({ type := keywordKind (String.mk (List.takeWhile isIdentChar (c :: cs))),
         lexeme := String.mk (List.takeWhile isIdentChar (c :: cs)),
         line := l, column := k, value := none },
       (List.takeWhile isIdentChar (c :: cs)).length, l,
       k + (List.takeWhile isIdentChar (c :: cs)).length) := by
  simp only [scan1]
  rw [if_neg h1, if_neg h2, if_pos h3]

theorem scan1_eq_string_ok (cs : List Char) (l k : Int) (body lit : List Char)
    (hsb : scanStringBody cs = some (body, lit)) :
    scan1 ('\"' :: cs) l k =
      ({ type := TOKEN_STRING,
         lexeme := String.mk ('\"' :: (body ++ ['\"'])), line := l,
         column := k,
         value := some (TokenValue.string_value (String.mk lit)) },
       body.length + 2, l, k + (body.length + 2)) := by
  simp only [scan1]
  rw [if_pos trivial, hsb]
  rfl

theorem scan1_eq_string_err (cs : List Char) (l k : Int)
    (hsb : scanStringBody cs = none) :
    scan1 ('\"' :: cs) l k =
      ({ type := TOKEN_ERROR, lexeme := "Unterminated string", line := l,
         column := k, value := none },
       (List.takeWhile (fun d => d ≠ '\n') cs).length + 1, l,
       k + ((List.takeWhile (fun d => d ≠ '\n') cs).length + 1)) := by
  simp only [scan1]
  rw [if_pos trivial, hsb]
  rfl

theorem scan1_eq_op (c : Char) (cs : List Char) (l k : Int)
    (h1 : c ≠ '\n') (h2 : ¬ c.isDigit = true) (h3 : ¬ isIdentStart c = true)
    (h4 : c ≠ '\"') :
    scan1 (c :: cs) l k =
      ({ type := (scanOp c cs).1, lexeme := (scanOp c cs).2.1, line := l,
         column := k, value := none }, (scanOp c cs).2.2, l,
       k + (scanOp c cs).2.2) := by
  simp only [scan1]
  rw [if_neg h1, if_neg h2, if_neg h3, if_neg h4]

theorem literalAgrees_none (ty : TokenType) (lex : String) (l k : Int)
    (h1 : ty ≠ TOKEN_NUMBER) (h2 : ty ≠ TOKEN_STRING) :
    literalAgrees { type := ty, lexeme := lex, line := l, column := k,
                    value := none } = true := by
  cases ty <;> first
    | rfl
    | exact absurd rfl h1
    | exact absurd rfl h2

theorem scan1_cons_facts (c : Char) (cs : List Char) (l k : Int) :
    (scan1 (c :: cs) l k).1.type ≠ TOKEN_EOF ∧
    1 ≤ (scan1 (c :: cs) l k).2.1 ∧
    literalAgrees (scan1 (c :: cs) l k).1 = true ∧
    (scan1 (c :: cs) l k).1.line = l ∧
    (scan1 (c :: cs) l k).1.column = k ∧
    l ≤ (scan1 (c :: cs) l k).2.2.1 ∧
    (1 ≤ k → 1 ≤ (scan1 (c :: cs) l k).2.2.2) := by
  by_cases h1 : c = '\n'
  · subst h1
    rw [scan1_eq_newline]
    exact ⟨(by decide : TOKEN_NEWLINE ≠ TOKEN_EOF), le_refl 1, rfl, rfl, rfl,
      (by omega : l ≤ l + 1), fun _ => le_refl 1⟩
  by_cases h2 : c.isDigit = true
  · rw [scan1_eq_digit c cs l k h1 h2, List.takeWhile_cons_of_pos h2]
    refine ⟨(by decide : TOKEN_NUMBER ≠ TOKEN_EOF),
      (by simp only [List.length_cons]; omega :
        1 ≤ (c :: List.takeWhile Char.isDigit cs).length),
      rfl, rfl, rfl, le_refl l, fun hk => ?_⟩
    show 1 ≤ k + ((c :: List.takeWhile Char.isDigit cs).length : Int)
    have h0 : (0:Int) ≤ ((c :: List.takeWhile Char.isDigit cs).length : Int) :=
      Int.ofNat_nonneg _
    omega
  by_cases h3 : isIdentStart c = true
  · rw [scan1_eq_ident c cs l k h1 h2 h3,
        List.takeWhile_cons_of_pos (identStart_isIdentChar c h3)]
    refine ⟨(keywordKind_facts _).1,
      (by simp only [List.length_cons]; omega :
        1 ≤ (c :: List.takeWhile isIdentChar cs).length),
      literalAgrees_none _ _ _ _ (keywordKind_facts _).2.1
        (keywordKind_facts _).2.2, rfl, rfl, le_refl l, fun hk => ?_⟩
    show 1 ≤ k + ((c :: List.takeWhile isIdentChar cs).length : Int)
    have h0 : (0:Int) ≤ ((c :: List.takeWhile isIdentChar cs).length : Int) :=
      Int.ofNat_nonneg _
    omega
  by_cases h4 : c = '\"'
  · subst h4
    cases hsb : scanStringBody cs with
    | none =>
      rw [scan1_eq_string_err cs l k hsb]
      refine ⟨(by decide : TOKEN_ERROR ≠ TOKEN_EOF),
        (by omega : 1 ≤ (List.takeWhile (fun d => d ≠ '\n') cs).length + 1),
        rfl, rfl, rfl, le_refl l, fun hk => ?_⟩
      show 1 ≤ k + (((List.takeWhile (fun d => d ≠ '\n') cs).length : Int) + 1)
      have h0 : (0:Int) ≤ ((List.takeWhile (fun d => d ≠ '\n') cs).length : Int) :=
        Int.ofNat_nonneg _
      omega
    | some bl =>
      obtain ⟨body, lit⟩ := bl
      rw [scan1_eq_string_ok cs l k body lit hsb]
      refine ⟨(by decide : TOKEN_STRING ≠ TOKEN_EOF),
        (by omega : 1 ≤ body.length + 2), rfl, rfl, rfl, le_refl l,
        fun hk => ?_⟩
      show 1 ≤ k + ((body.length : Int) + 2)
      have h0 : (0:Int) ≤ (body.length : Int) := Int.ofNat_nonneg _
      omega
  · rw [scan1_eq_op c cs l k h1 h2 h3 h4]
    obtain ⟨f1, f2, f3, f4⟩ := scanOp_facts c cs
    refine ⟨f1, f4, literalAgrees_none _ _ _ _ f2 f3, rfl, rfl, le_refl l,
      fun hk => ?_⟩
    show 1 ≤ k + (((scanOp c cs).2.2 : Nat) : Int)
    have h0 : (1:Int) ≤ (((scanOp c cs).2.2 : Nat) : Int) := by exact_mod_cast f4
    omega

theorem next_token_eof_iff (st : Lexer) :
    (next_token st).1.type = TOKEN_EOF ↔ lexRest2 st = [] := by
  constructor
  · intro h
    by_contra hne
    obtain ⟨c, cs, hcc⟩ := List.exists_cons_of_ne_nil hne
    have hf := (scan1_cons_facts c cs st.line (lexCol2 st)).1
    have he : (next_token st).1.type =
        (scan1 (lexRest2 st) st.line (lexCol2 st)).1.type := rfl
    rw [he, hcc] at h
    exact hf h
  · intro h
    have he : (next_token st).1.type =
        (scan1 (lexRest2 st) st.line (lexCol2 st)).1.type := rfl
    rw [he, h, scan1_nil]

theorem next_token_progress (st : Lexer)
    (h : (next_token st).1.type ≠ TOKEN_EOF) :
    st.pos < (next_token st).2.pos ∧ st.pos < st.source.length := by
  have hne : lexRest2 st ≠ [] := fun hnil => h ((next_token_eof_iff st).mpr hnil)
  obtain ⟨c, cs, hcc⟩ := List.exists_cons_of_ne_nil hne
  have hf := (scan1_cons_facts c cs st.line (lexCol2 st)).2.1
  constructor
  · show st.pos <
      st.pos + wsLen st + (scan1 (lexRest2 st) st.line (lexCol2 st)).2.1
    rw [hcc]
    omega
  · have l2 : 0 < (lexRest2 st).length := List.length_pos.mpr hne
    have e1 : (lexRest2 st).length = (lexRest st).length - wsLen st :=
      List.length_drop _ _
    have e2 : (lexRest st).length = st.source.length - st.pos :=
      List.length_drop _ _
    omega

theorem next_token_pos_mono (st : Lexer) : st.pos ≤ (next_token st).2.pos := by
  show st.pos ≤
    st.pos + wsLen st + (scan1 (lexRest2 st) st.line (lexCol2 st)).2.1
  omega

theorem next_token_source (st : Lexer) : (next_token st).2.source = st.source :=
  rfl

theorem next_token_agrees (st : Lexer) :
    literalAgrees (next_token st).1 = true := by
  cases hcc : lexRest2 st with
  | nil =>
    have he : (next_token st).1 =
        (scan1 (lexRest2 st) st.line (lexCol2 st)).1 := rfl
    rw [he, hcc, scan1_nil]
    rfl
  | cons c cs =>
    have hf := (scan1_cons_facts c cs st.line (lexCol2 st)).2.2.1
    have he : (next_token st).1 =
        (scan1 (lexRest2 st) st.line (lexCol2 st)).1 := rfl
    rw [he, hcc]
    exact hf

theorem next_token_positions (st : Lexer) (hl : 1 ≤ st.line)
    (hc : 1 ≤ st.column) :
    1 ≤ (next_token st).1.line ∧ 1 ≤ (next_token st).1.column ∧
    1 ≤ (next_token st).2.line ∧ 1 ≤ (next_token st).2.column := by
  have hc2 : 1 ≤ lexCol2 st := by
    have h0 : (0:Int) ≤ ((wsLen st : Nat) : Int) := Int.ofNat_nonneg _
    show 1 ≤ st.column + ((wsLen st : Nat) : Int)
    omega
  cases hcc : lexRest2 st with
  | nil =>
    have he : next_token st =
        ((scan1 (lexRest2 st) st.line (lexCol2 st)).1,
         { source := st.source,
           pos := st.pos + wsLen st +
             (scan1 (lexRest2 st) st.line (lexCol2 st)).2.1,
           line := (scan1 (lexRest2 st) st.line (lexCol2 st)).2.2.1,
           column := (scan1 (lexRest2 st) st.line (lexCol2 st)).2.2.2 }) := rfl
    rw [he, hcc, scan1_nil]
    exact ⟨hl, hc2, hl, hc2⟩
  | cons c cs =>
    obtain ⟨-, -, -, f4, f5, f6, f7⟩ :=
      scan1_cons_facts c cs st.line (lexCol2 st)
    have e1 : (next_token st).1.line =
        (scan1 (lexRest2 st) st.line (lexCol2 st)).1.line := rfl
    have e2 : (next_token st).1.column =
        (scan1 (lexRest2 st) st.line (lexCol2 st)).1.column := rfl
    have e3 : (next_token st).2.line =
        (scan1 (lexRest2 st) st.line (lexCol2 st)).2.2.1 := rfl
    have e4 : (next_token st).2.column =
        (scan1 (lexRest2 st) st.line (lexCol2 st)).2.2.2 := rfl
    rw [e1, e2, e3, e4, hcc]
    exact ⟨by rw [f4]; exact hl, by rw [f5]; exact hc2, by omega,
           f7 hc2⟩

theorem next_token_of_rest_nil (u : Lexer) (hu : lexRest2 u = []) :
    next_token u =
      ({ type := TOKEN_EOF, lexeme := "", line := u.line,
         column := lexCol2 u, value := none },
       { source := u.source, pos := u.pos + wsLen u, line := u.line,
         column := lexCol2 u }) := by
  show ((scan1 (lexRest2 u) u.line (lexCol2 u)).1,
        ({ source := u.source,
           pos := u.pos + wsLen u + (scan1 (lexRest2 u) u.line (lexCol2 u)).2.1,
           line := (scan1 (lexRest2 u) u.line (lexCol2 u)).2.2.1,
           column := (scan1 (lexRest2 u) u.line (lexCol2 u)).2.2.2 } : Lexer)) = _
  rw [hu, scan1_nil]
  simp

theorem next_token_idem_aux (src : List Char) (p : Nat) (l c : Int)
    (hdd : src.drop p = []) :
    next_token ⟨src, p, l, c⟩ =
      ({ type := TOKEN_EOF, lexeme := "", line := l, column := c,
         value := none }, ⟨src, p, l, c⟩) := by
  have hr : lexRest2 ⟨src, p, l, c⟩ = [] := by
    show (src.drop p).drop _ = []
    rw [hdd]
    exact List.drop_nil
  have hw : wsLen (⟨src, p, l, c⟩ : Lexer) = 0 := by
    show ((src.drop p).takeWhile isHorizWs).length = 0
    rw [hdd]
    rfl
  have hc : lexCol2 (⟨src, p, l, c⟩ : Lexer) = c := by
    show c + ((wsLen (⟨src, p, l, c⟩ : Lexer) : Nat) : Int) = c
    rw [hw]
    simp
  have e := next_token_of_rest_nil ⟨src, p, l, c⟩ hr
  rw [e, hw, hc]
  simp

theorem next_token_eof_idem (st : Lexer)
    (h : (next_token st).1.type = TOKEN_EOF) :
    next_token (next_token st).2 = next_token st := by
  have h2 : lexRest2 st = [] := (next_token_eof_iff st).mp h
  have e1 := next_token_of_rest_nil st h2
  have hdd : st.source.drop (st.pos + wsLen st) = [] := by
    have hsw : st.source.drop (st.pos + wsLen st) =
        (st.source.drop st.pos).drop (wsLen st) := by
      rw [List.drop_drop, Nat.add_comm]
    rw [hsw]
    exact h2
  rw [e1]
  show next_token
      (⟨st.source, st.pos + wsLen st, st.line, lexCol2 st⟩ : Lexer) =
    ({ type := TOKEN_EOF, lexeme := "", line := st.line,
       column := lexCol2 st, value := none },
     ⟨st.source, st.pos + wsLen st, st.line, lexCol2 st⟩)
  exact next_token_idem_aux st.source (st.pos + wsLen st) st.line
    (lexCol2 st) hdd

theorem tokenizeFuel_endsEOF (fuel : Nat) :
    ∀ st : Lexer, st.source.length - st.pos < fuel →
      endsEOF (tokenizeFuel fuel st) = true := by
  induction fuel with
  | zero => intro st h; omega
  | succ n ih =>
    intro st h
    show endsEOF
      (if (next_token st).1.type = TOKEN_EOF then [(next_token st).1]
       else (next_token st).1 :: tokenizeFuel n (next_token st).2) = true
    by_cases he : (next_token st).1.type = TOKEN_EOF
    · rw [if_pos he]
      simp [endsEOF, he]
    · rw [if_neg he]
      obtain ⟨hlt, hbound⟩ := next_token_progress st he
      have hm : (next_token st).2.source.length - (next_token st).2.pos < n := by
        rw [next_token_source]
        omega
      have ht := ih (next_token st).2 hm
      have hne : tokenizeFuel n (next_token st).2 ≠ [] := by
        intro hnil
        rw [hnil] at ht
        exact absurd ht (by decide)
      obtain ⟨u, us, huu⟩ := List.exists_cons_of_ne_nil hne
      rw [huu]
      rw [huu] at ht
      simpa [endsEOF, List.getLast?_cons_cons] using ht

theorem tokenizeFuel_agrees (fuel : Nat) :
    ∀ (st : Lexer) (t : Token), t ∈ tokenizeFuel fuel st →
      literalAgrees t = true := by
  induction fuel with
  | zero => intro st t h; exact absurd h (List.not_mem_nil t)
  | succ n ih =>
    intro st t h
    have hs : tokenizeFuel (n + 1) st =
        (if (next_token st).1.type = TOKEN_EOF then [(next_token st).1]
         else (next_token st).1 :: tokenizeFuel n (next_token st).2) := rfl
    rw [hs] at h
    by_cases he : (next_token st).1.type = TOKEN_EOF
    · rw [if_pos he] at h
      rw [List.mem_singleton.mp h]
      exact next_token_agrees st
    · rw [if_neg he] at h
      rcases List.mem_cons.mp h with h1 | h1
      · rw [h1]; exact next_token_agrees st
      · exact ih (next_token st).2 t h1

theorem tokenizeFuel_positions (fuel : Nat) :
    ∀ (st : Lexer) (t : Token), 1 ≤ st.line → 1 ≤ st.column →
      t ∈ tokenizeFuel fuel st → 1 ≤ t.line ∧ 1 ≤ t.column := by
  induction fuel with
  | zero => intro st t _ _ h; exact absurd h (List.not_mem_nil t)
  | succ n ih =>
    intro st t hl hc h
    obtain ⟨p1, p2, p3, p4⟩ := next_token_positions st hl hc
    have hs : tokenizeFuel (n + 1) st =
        (if (next_token st).1.type = TOKEN_EOF then [(next_token st).1]
         else (next_token st).1 :: tokenizeFuel n (next_token st).2) := rfl
    rw [hs] at h
    by_cases he : (next_token st).1.type = TOKEN_EOF
    · rw [if_pos he] at h
      rw [List.mem_singleton.mp h]
      exact ⟨p1, p2⟩
    · rw [if_neg he] at h
      rcases List.mem_cons.mp h with h1 | h1
      · rw [h1]; exact ⟨p1, p2⟩
      · exact ih (next_token st).2 t p3 p4 h1

theorem literalAgrees_isSome_iff (t : Token) (h : literalAgrees t = true) :
    (t.value.isSome = true ↔
      (t.type = TOKEN_NUMBER ∨ t.type = TOKEN_STRING)) := by
  obtain ⟨ty, lex, l, k, v⟩ := t
  cases v with
  | none => cases ty <;> simp_all [literalAgrees]
  | some tv => cases tv <;> cases ty <;> simp_all [literalAgrees]

/-- C1 (counterexample): the claimed construction-time enforcement does not
exist in the `Token` struct of `token.h` — the literal lives in a plain
union next to the kind, so a value of any non-literal kind (here `Plus`)
can carry a written literal member; nothing ties union occupancy to the
kind. -/
theorem token_literal_tagged_refuted :
    ¬ ∀ t : Token, (t.value.isSome = true ↔
        (t.type = TOKEN_NUMBER ∨ t.type = TOKEN_STRING)) := by
  intro h
  exact absurd ((h { type := TOKEN_PLUS, lexeme := "+", line := 1,
                     column := 1,
                     value := some (TokenValue.int_value 0) }).mp rfl)
    (by decide)

/-- C1 (amended): for every token the lexer actually produces, the literal
is present if and only if the kind is Number or String, and the member
written agrees with the kind; the invariant is maintained by the scanning
code, not enforced by the type of `Token`. -/
theorem lexer_literal_invariant (s : String) (t : Token)
    (h : t ∈ tokenize s) :
    literalAgrees t = true ∧
    (t.value.isSome = true ↔
      (t.type = TOKEN_NUMBER ∨ t.type = TOKEN_STRING)) := by
  have ha := tokenizeFuel_agrees _ _ t h
  exact ⟨ha, literalAgrees_isSome_iff t ha⟩

/-- C1 (witness): the amended invariant, instantiated at the Number token
produced for the input `5`. -/
theorem lexer_literal_invariant_witness :
    literalAgrees { type := TOKEN_NUMBER, lexeme := "5", line := 1,
                    column := 1,
                    value := some (TokenValue.int_value 5) } = true ∧
    (({ type := TOKEN_NUMBER, lexeme := "5", line := 1, column := 1,
        value := some (TokenValue.int_value 5) } : Token).value.isSome = true ↔
      (({ type := TOKEN_NUMBER, lexeme := "5", line := 1, column := 1,
          value := some (TokenValue.int_value 5) } : Token).type = TOKEN_NUMBER ∨
       ({ type := TOKEN_NUMBER, lexeme := "5", line := 1, column := 1,
          value := some (TokenValue.int_value 5) } : Token).type = TOKEN_STRING)) :=
  lexer_literal_invariant "5" _ (by decide)

/-- C2 (counterexample): `create_token` as declared in `token.h` takes no
literal argument, so a Number token fresh from `create_token` violates the
literal-iff-Number/String invariant: its union member is unwritten. -/
theorem create_token_literal_refuted :
    ¬ ((create_token TOKEN_NUMBER "5" 1 1).value.isSome = true ↔
       ((create_token TOKEN_NUMBER "5" 1 1).type = TOKEN_NUMBER ∨
        (create_token TOKEN_NUMBER "5" 1 1).type = TOKEN_STRING)) := by
  decide

/-- C2 (amended): `create_token`, given a kind, a lexeme, a line and a
column — its full argument list — produces a token whose four attributes
equal the supplied arguments, with no literal installed and no further
validation; the literal member is written separately by the caller. -/
theorem create_token_attributes (ty : TokenType) (lex : String)
    (l k : Int) :
    (create_token ty lex l k).type = ty ∧
    (create_token ty lex l k).lexeme = lex ∧
    (create_token ty lex l k).line = l ∧
    (create_token ty lex l k).column = k ∧
    (create_token ty lex l k).value = none :=
  ⟨rfl, rfl, rfl, rfl, rfl⟩

/-- C3: tokenization of any finite buffer reaches EndOfFile within the
fuel bound (one step per character plus one), and every single
`next_token` call either returns EndOfFile or strictly advances the
cursor; `next_token` is a total function returning a token. -/
theorem next_token_totality :
    (∀ s : String, endsEOF (tokenize s) = true) ∧
    (∀ st : Lexer, (next_token st).1.type = TOKEN_EOF ∨
      st.pos < (next_token st).2.pos) := by
  constructor
  · intro s
    apply tokenizeFuel_endsEOF
    show s.toList.length - 0 < s.toList.length + 1
    omega
  · intro st
    by_cases h : (next_token st).1.type = TOKEN_EOF
    · exact Or.inl h
    · exact Or.inr (next_token_progress st h).1

/-- C4: once `next_token` has returned an EndOfFile token, calling it
again on the resulting state returns the same EndOfFile token and the same
state — the terminal state is idempotent. -/
theorem eof_idempotent (st : Lexer)
    (h : (next_token st).1.type = TOKEN_EOF) :
    next_token (next_token st).2 = next_token st ∧
    (next_token (next_token st).2).1.type = TOKEN_EOF := by
  have he := next_token_eof_idem st h
  exact ⟨he, by rw [he]; exact h⟩

/-- C4 (witness): idempotence instantiated on the empty buffer, whose
first call already returns EndOfFile. -/
theorem eof_idempotent_witness :
    (next_token (initLexer "")).1.type = TOKEN_EOF ∧
    (next_token (next_token (initLexer "")).2 = next_token (initLexer "") ∧
     (next_token (next_token (initLexer "")).2).1.type = TOKEN_EOF) :=
  ⟨by decide, eof_idempotent (initLexer "") (by decide)⟩

/-- C5: an invalid character yields exactly one in-band Error token and
scanning continues (an Error-returning call strictly advances the
cursor); in particular `x = 5 @ 3;` tokenizes to Identifier(x), Assign,
Number(5), Error(@), Number(3), Semicolon, EndOfFile. -/
theorem error_recovery :
    tokenize "x = 5 @ 3;" =
      [{ type := TOKEN_IDENTIFIER, lexeme := "x", line := 1, column := 1,
         value := none },
       { type := TOKEN_ASSIGN, lexeme := "=", line := 1, column := 3,
         value := none },
       { type := TOKEN_NUMBER, lexeme := "5", line := 1, column := 5,
         value := some (TokenValue.int_value 5) },
       { type := TOKEN_ERROR, lexeme := "@", line := 1, column := 7,
         value := none },
       { type := TOKEN_NUMBER, lexeme := "3", line := 1, column := 9,
         value := some (TokenValue.int_value 3) },
       { type := TOKEN_SEMICOLON, lexeme := ";", line := 1, column := 10,
         value := none },
       { type := TOKEN_EOF, lexeme := "", line := 1, column := 11,
         value := none }] ∧
    (∀ st : Lexer, (next_token st).1.type = TOKEN_ERROR →
      st.pos < (next_token st).2.pos) := by
  constructor
  · decide
  · intro st h
    exact (next_token_progress st (by rw [h]; decide)).1

/-- C5 (witness): the progress-after-error clause instantiated on the
buffer `@`. -/
theorem error_recovery_witness :
    (next_token (initLexer "@")).1.type = TOKEN_ERROR ∧
    (initLexer "@").pos < (next_token (initLexer "@")).2.pos :=
  ⟨by decide, error_recovery.2 (initLexer "@") (by decide)⟩

/-- C6: identifier scanning takes the maximal run of identifier
characters and only then compares the whole lexeme against the keyword
set; `if` is keyword If, `ifx` and `whileX` are single Identifiers. -/
theorem keyword_classification :
    (∀ (c : Char) (cs : List Char) (l k : Int), isIdentStart c = true →
       (scan1 (c :: cs) l k).1.type =
         keywordKind (String.mk (List.takeWhile isIdentChar (c :: cs))) ∧
       (scan1 (c :: cs) l k).1.lexeme =
         String.mk (List.takeWhile isIdentChar (c :: cs))) ∧
    keywordKind "if" = TOKEN_IF ∧
    keywordKind "ifx" = TOKEN_IDENTIFIER ∧
    tokenize "if" =
      [{ type := TOKEN_IF, lexeme := "if", line := 1, column := 1,
         value := none },
       { type := TOKEN_EOF, lexeme := "", line := 1, column := 3,
         value := none }] ∧
    tokenize "ifx" =
      [{ type := TOKEN_IDENTIFIER, lexeme := "ifx", line := 1, column := 1,
         value := none },
       { type := TOKEN_EOF, lexeme := "", line := 1, column := 4,
         value := none }] ∧
    tokenize "whileX" =
      [{ type := TOKEN_IDENTIFIER, lexeme := "whileX", line := 1,
         column := 1, value := none },
       { type := TOKEN_EOF, lexeme := "", line := 1, column := 7,
         value := none }] := by
  refine ⟨fun c cs l k h3 => ?_, by decide, by decide, by decide, by decide,
    by decide⟩
  rw [scan1_eq_ident c cs l k (identStart_ne_newline c h3)
    (identStart_not_digit c h3) h3]
  exact ⟨rfl, rfl⟩

/-- C6 (witness): the general clause instantiated on the buffer `wx`
(identifier start `w`). -/
theorem keyword_classification_witness :
    isIdentStart 'w' = true ∧
    ((scan1 ('w' :: ['x']) 1 1).1.type =
       keywordKind (String.mk (List.takeWhile isIdentChar ('w' :: ['x']))) ∧
     (scan1 ('w' :: ['x']) 1 1).1.lexeme =
       String.mk (List.takeWhile isIdentChar ('w' :: ['x']))) :=
  ⟨by decide, keyword_classification.1 'w' ['x'] 1 1 (by decide)⟩

/-- C7: two-character operators win over their one-character prefixes
(`<=` is one LessEqual token, likewise `==`, `!=`, `>=`), and an
exclamation mark not followed by `=` produces an Error token. -/
theorem greedy_operators :
    tokenize "<=" =
      [{ type := TOKEN_LESS_EQUAL, lexeme := "<=", line := 1, column := 1,
         value := none },
       { type := TOKEN_EOF, lexeme := "", line := 1, column := 3,
         value := none }] ∧
    (∀ (cs : List Char) (l k : Int), cs.head? ≠ some '=' →
      (scan1 ('!' :: cs) l k).1.type = TOKEN_ERROR) ∧
    tokenize "==" =
      [{ type := TOKEN_EQUAL, lexeme := "==", line := 1, column := 1,
         value := none },
       { type := TOKEN_EOF, lexeme := "", line := 1, column := 3,
         value := none }] ∧
    tokenize "!=" =
      [{ type := TOKEN_NOT_EQUAL, lexeme := "!=", line := 1, column := 1,
         value := none },
       { type := TOKEN_EOF, lexeme := "", line := 1, column := 3,
         value := none }] ∧
    tokenize ">=" =
      [{ type := TOKEN_GREATER_EQUAL, lexeme := ">=", line := 1,
         column := 1, value := none },
       { type := TOKEN_EOF, lexeme := "", line := 1, column := 3,
         value := none }] ∧
    tokenize "!" =
      [{ type := TOKEN_ERROR, lexeme := "!", line := 1, column := 1,
         value := none },
       { type := TOKEN_EOF, lexeme := "", line := 1, column := 2,
         value := none }] := by
  refine ⟨by decide, fun cs l k hne => ?_, by decide, by decide, by decide,
    by decide⟩
  rw [scan1_eq_op '!' cs l k (by decide) (by decide) (by decide)
    (by decide)]
  show (scanOp '!' cs).1 = TOKEN_ERROR
  delta scanOp
  rw [if_neg (by decide : ¬('!' = '=')), if_pos rfl, if_neg hne]

/-- C7 (witness): the lone-exclamation clause instantiated on the buffer
consisting of `!` alone. -/
theorem greedy_operators_witness :
    ([] : List Char).head? ≠ some '=' ∧
    (scan1 ('!' :: ([] : List Char)) 1 1).1.type = TOKEN_ERROR :=
  ⟨by decide, greedy_operators.2.1 [] 1 1 (by decide)⟩

/-- C8: the `TokenType` enumeration is closed and exhaustive — every kind
is one of the 30 listed variants, and the 30 variants are pairwise
distinct. -/
theorem token_kinds_closed :
    (∀ ty : TokenType, ty ∈ allTokenTypes) ∧ allTokenTypes.Nodup ∧
    allTokenTypes.length = 30 := by
  refine ⟨fun ty => ?_, by decide, rfl⟩
  cases ty <;> simp [allTokenTypes]

/-- C9: `token_type_to_string` is total over the enumeration and returns a
nonempty human-readable name for every kind. -/
theorem token_type_names_total :
    ∀ ty : TokenType, token_type_to_string ty ≠ "" := by
  intro ty
  cases ty <;> decide

/-- C10: tokens report 1-based positive line and column numbers of their
first character; for `a`, newline, `b` the token for `b` is at line 2
column 1 and the Newline token is at line 1. -/
theorem position_reporting :
    tokenize "a\nb" =
      [{ type := TOKEN_IDENTIFIER, lexeme := "a", line := 1, column := 1,
         value := none },
       { type := TOKEN_NEWLINE, lexeme := "\n", line := 1, column := 2,
         value := none },
       { type := TOKEN_IDENTIFIER, lexeme := "b", line := 2, column := 1,
         value := none },
       { type := TOKEN_EOF, lexeme := "", line := 2, column := 2,
         value := none }] ∧
    (∀ (s : String) (t : Token), t ∈ tokenize s →
      1 ≤ t.line ∧ 1 ≤ t.column) := by
  constructor
  · decide
  · intro s t h
    exact tokenizeFuel_positions (s.toList.length + 1) (initLexer s) t
      (le_refl 1) (le_refl 1) h

/-- C10 (witness): positivity instantiated at the Identifier token of the
buffer `a`. -/
theorem position_reporting_witness :
    (({ type := TOKEN_IDENTIFIER, lexeme := "a", line := 1, column := 1,
        value := none } : Token) ∈ tokenize "a") ∧
    (1 ≤ ({ type := TOKEN_IDENTIFIER, lexeme := "a", line := 1,
            column := 1, value := none } : Token).line ∧
     1 ≤ ({ type := TOKEN_IDENTIFIER, lexeme := "a", line := 1,
            column := 1, value := none } : Token).column) :=
  ⟨by decide, position_reporting.2 "a" _ (by decide)⟩
